import Mathlib

/-!
Verification development for the Apex batch submitter
(`src/apex_submitter_v2.py`).

The Python program is shallowly embedded: pure fragments become Lean
functions, effectful primitives (wall clock, UUID generator, SHA-256,
signing primitive, HTTP transport) become explicit parameters, Python
dict records become structures whose possibly-missing keys are `Option`
fields, and a raised exception becomes the `Except.error` branch.
Machine floats (durations) are modelled as rationals; byte values as
`Nat` reduced mod 256 where relevant.
-/

set_option linter.unusedVariables false

deriving instance DecidableEq for Except

/-! ## Decimal and hexadecimal rendering (embeddings of `str(int)` and `bytes.hex()`) -/

/-- Fuel-driven most-significant-first decimal digits of `n`; embedding of the
digit loop underlying the Python rendering `str(n)` for a nonnegative integer.
Fuel `n` itself is always sufficient. -/
def natDecAux : Nat → Nat → List Char
  | 0, _ => []
  | fuel + 1, n =>
    if n = 0 then []
    else natDecAux fuel (n / 10) ++ [Nat.digitChar (n % 10)]

/-- Embedding of the Python rendering `str(n)` for a natural number. -/
def natDecimal (n : Nat) : String :=
  if n = 0 then "0" else String.mk (natDecAux n n)

/-- Embedding of the Python rendering `str(n)` for an integer (used by
`json.dumps` for int values, which renders them as unquoted decimals). -/
def intDecimal : Int → String
  | Int.ofNat n => natDecimal n
  | Int.negSucc m => "-" ++ natDecimal (m + 1)

/-- Decimal re-reading of a digit string; used to show `natDecimal` is
injective (two distinct numbers never render to the same string). -/
def charsVal (cs : List Char) : Nat :=
  cs.foldl (fun acc c => 10 * acc + (c.toNat - 48)) 0

/-- Embedding of `bytes.hex()` for a single byte: two lowercase hex digits.
Byte values are `Nat` reduced mod 256, matching the Python `bytes` type. -/
def byteToHexChars (b : Nat) : List Char :=
  [Nat.digitChar (b % 256 / 16), Nat.digitChar (b % 16)]

/-- Embedding of `bytes.hex()` / `hashlib.sha256(...).hexdigest()`:
lowercase hex rendering of a byte sequence. -/
def bytesToHex (bs : List Nat) : String :=
  String.mk (bs.map byteToHexChars).flatten

/-- Four lowercase hex digits, as produced inside the `\u....` escapes of
`json.dumps` with its default `ensure_ascii=True`. -/
def hex4 (n : Nat) : String :=
  String.mk [Nat.digitChar (n / 4096 % 16), Nat.digitChar (n / 256 % 16),
             Nat.digitChar (n / 16 % 16), Nat.digitChar (n % 16)]

/-! ## UTF-8 encoding (embedding of `str.encode("utf-8")`) -/

/-- Embedding of UTF-8 encoding of one code point (1 to 4 bytes). -/
def utf8EncodeChar (c : Char) : List Nat :=
  let n := c.toNat
  if n < 128 then [n]
  else if n < 2048 then [192 + n / 64, 128 + n % 64]
  else if n < 65536 then [224 + n / 4096, 128 + n / 64 % 64, 128 + n % 64]
  else [240 + n / 262144, 128 + n / 4096 % 64, 128 + n / 64 % 64, 128 + n % 64]

/-- Embedding of `s.encode("utf-8")`: the byte sequence of a string. -/
def utf8Encode (s : String) : List Nat :=
  (s.data.map utf8EncodeChar).flatten

/-! ## JSON serialization (embedding of `json.dumps(data, default=str, sort_keys=True)`)

The dict serialized by `BatchSubmitter.create_message_body` is flat with
string keys and values that are Python ints or strings.  Both types are
natively JSON-serializable, so the `default=str` fallback never fires for
them; ints are emitted as unquoted decimals and strings as quoted, escaped
JSON strings.  `sort_keys=True` emits keys in Python sorted order, which is
code-point lexicographic; the default separators are `", "` and `": "`. -/

/-- Value of one entry of the dict passed to `create_message_body`:
a Python int or a Python string. -/
inductive PyVal where
  | pint (n : Int)
  | pstr (s : String)
  deriving DecidableEq

/-- Embedding of the per-character escaping of `json.dumps` with its default
`ensure_ascii=True`: quote and backslash escaped, the usual control-character
short escapes, every other character outside printable ASCII rendered as
`\u....` (non-BMP code points as a surrogate pair). -/
def escapeChar (c : Char) : String :=
  if c = '"' then "\\\""
  else if c = '\\' then "\\\\"
  else if c.toNat = 10 then "\\n"
  else if c.toNat = 9 then "\\t"
  else if c.toNat = 13 then "\\r"
  else if c.toNat = 8 then "\\b"
  else if c.toNat = 12 then "\\f"
  else if c.toNat < 32 || 126 < c.toNat then
    if c.toNat < 65536 then "\\u" ++ hex4 c.toNat
    else "\\u" ++ hex4 (55296 + (c.toNat - 65536) / 1024) ++
         "\\u" ++ hex4 (56320 + (c.toNat - 65536) % 1024)
  else String.mk [c]

/-- Embedding of JSON string-body escaping. -/
def jsonEscape (s : String) : String :=
  String.join (s.data.map escapeChar)

/-- Embedding of the JSON rendering of a Python string: quoted and escaped. -/
def jsonQuote (s : String) : String :=
  "\"" ++ jsonEscape s ++ "\""

/-- Embedding of the JSON rendering of one dict value: ints as unquoted
decimals, strings quoted. -/
def renderPyVal : PyVal → String
  | PyVal.pint n => intDecimal n
  | PyVal.pstr s => jsonQuote s

/-- Embedding of the JSON rendering of one `key: value` dict entry with the
default `": "` separator of `json.dumps`. -/
def renderKV (kv : String × PyVal) : String :=
  jsonQuote kv.1 ++ ": " ++ renderPyVal kv.2

/-- Embedding of joining dict entries with the default `", "` separator. -/
def renderEntries : List (String × PyVal) → String
  | [] => ""
  | [kv] => renderKV kv
  | kv :: kv2 :: rest => renderKV kv ++ ", " ++ renderEntries (kv2 :: rest)

/-- Boolean code-point-lexicographic comparison of char lists; embedding of
the Python string comparison used by `sorted` under `sort_keys=True`. -/
def charListLe : List Char → List Char → Bool
  | [], _ => true
  | _ :: _, [] => false
  | a :: as, b :: bs => if a < b then true else if b < a then false else charListLe as bs

/-- Boolean code-point-lexicographic comparison of strings. -/
def strLe (a b : String) : Bool := charListLe a.data b.data

/-- Stable insertion of one dict entry into a key-sorted entry list. -/
def insertKV (kv : String × PyVal) : List (String × PyVal) → List (String × PyVal)
  | [] => [kv]
  | kv2 :: rest => if strLe kv.1 kv2.1 then kv :: kv2 :: rest else kv2 :: insertKV kv rest

/-- Embedding of the key sort performed by `json.dumps(..., sort_keys=True)`
(a stable sort by key under code-point-lexicographic string order). -/
def sortKvs : List (String × PyVal) → List (String × PyVal)
  | [] => []
  | kv :: rest => insertKV kv (sortKvs rest)

/-- Embedding of `json.dumps(data, default=str, sort_keys=True)` for a flat
dict of int and string values, including the enclosing braces. -/
def json_dumps_sorted (kvs : List (String × PyVal)) : String :=
  "\x7b" ++ renderEntries (sortKvs kvs) ++ "\x7d"

/-- The `submit_request` dict built in `BatchSubmitter.submit_single`
(lines 200 to 204 of the source), in its Python construction order. -/
def submitRequestDict (competition_id round_number : Int) (raw_code : String) :
    List (String × PyVal) :=
  [("competition_id", PyVal.pint competition_id),
   ("round_number", PyVal.pint round_number),
   ("raw_code", PyVal.pstr raw_code)]

/-- Embedding of `BatchSubmitter.create_message_body`:
`json.dumps(data, default=str, sort_keys=True).encode("utf-8")`. -/
def create_message_body (data : List (String × PyVal)) : List Nat :=
  utf8Encode (json_dumps_sorted data)

/-! ## Request signing (embedding of `BatchSubmitter.generate_header`)

The SHA-256 primitive and the keypair signing primitive are opaque library
calls in the source (`hashlib.sha256`, `Keypair.sign`); they enter the
embedding as function parameters `sha` (byte sequence to 32-byte digest) and
`sign` (message string to signature bytes).  The wall-clock millisecond
timestamp and the freshly drawn UUID are effectful reads in the source and
enter as the parameters `timestamp` and `request_id`. -/

/-- The Epistula authentication headers emitted by `generate_header`. -/
structure EpistulaHeaders where
  epistula_timestamp : String
  epistula_signed_by : String
  epistula_request_signature : String
  x_spec_version : String
  x_request_id : String
  content_type : String
  deriving DecidableEq

/-- Embedding of the signed message built at line 151 of the source:
the f-string rendering of `digest.timestamp.` with its trailing dot. -/
def signedMessage (sha : List Nat → List Nat) (timestamp : Nat) (body : List Nat) : String :=
  bytesToHex (sha body) ++ "." ++ natDecimal timestamp ++ "."

/-- Embedding of `BatchSubmitter.generate_header` (lines 148 to 162). -/
def generate_header (sha : List Nat → List Nat) (sign : String → List Nat)
    (ss58_address : String) (spec_version : Nat) (timestamp : Nat)
    (request_id : String) (body : List Nat) : EpistulaHeaders :=
  { epistula_timestamp := natDecimal timestamp,
    epistula_signed_by := ss58_address,
    epistula_request_signature := "0x" ++ bytesToHex (sign (signedMessage sha timestamp body)),
    x_spec_version := natDecimal spec_version,
    x_request_id := request_id,
    content_type := "application/json" }

/-! ## Data model of the dispatcher -/

/-- One discovered hotkey record as produced by `find_all_hotkeys`
(always carries all four keys). -/
structure HotkeyInfo where
  wallet_name : String
  hotkey_name : String
  hotkey_path : String
  ss58_address : String
  deriving DecidableEq

/-- The HTTP response observed by the transport: status code, body text, and
the result of parsing the body as JSON (`response.json()` can itself raise).
The parsed JSON document is kept opaque as its source text. -/
structure HttpResponse where
  status : Nat
  text : String
  json : Except String String
  deriving DecidableEq

/-- One per-submission result dict.  `submit_single` returns it with every
key present; the fault-conversion branch of `batch_submit` builds a sparse
dict with only `success`, `hotkey` and `error`, so the keys that the sparse
dict lacks are `Option` fields here (`none` means the key is absent). -/
structure ResultRecord where
  success : Bool
  hotkey : String
  hotkey_short : Option String
  wallet_name : Option String
  hotkey_name : Option String
  response : Option String
  error : Option String
  duration : Option ℚ
  repeat_num : Option Nat
  deriving DecidableEq

/-- Embedding of `BatchSubmitter.submit_single` (lines 164 to 230).  The
whole fallible prefix of the `try` block (loading the keypair, signing, and
the HTTP POST) is abstracted as `attempt`: `Except.error e` is an exception
with text `e` caught by the `except` clause, `Except.ok resp` is an observed
HTTP response.  `dur_ok` is the duration measured at line 218 and `dur_exc`
the one measured at line 227 (wall-clock reads, hence parameters). -/
def submit_single (info : HotkeyInfo) (attempt : Except String HttpResponse)
    (dur_ok dur_exc : ℚ) : ResultRecord :=
  let result0 : ResultRecord :=
    { success := false,
      hotkey := info.ss58_address,
      hotkey_short := some (info.ss58_address.take 8),
      wallet_name := some info.wallet_name,
      hotkey_name := some info.hotkey_name,
      response := none,
      error := none,
      duration := some 0,
      repeat_num := none }
  match attempt with
  | Except.error e => { result0 with duration := some dur_exc, error := some e }
  | Except.ok resp =>
    let r1 := { result0 with duration := some dur_ok }
    if resp.status = 200 then
      match resp.json with
      | Except.ok v => { r1 with success := true, response := some v }
      | Except.error e =>
        { r1 with success := true, duration := some dur_exc, error := some e }
    else
      { r1 with error := some ("HTTP " ++ natDecimal resp.status ++ ": " ++ resp.text) }

/-! ## Batch scheduler (embedding of `BatchSubmitter.batch_submit`)

A task is the per-identity coroutine handed to `asyncio.gather`; its result
is `Except.ok` (the dict `submit_single` returned) or `Except.error` (an
uncaught fault, returned as an exception object by
`gather(..., return_exceptions=True)`).  Tasks are indexed by the repeat
cycle because each cycle re-runs every submission.  `asyncio.gather` returns
results positionally aligned with its argument order, which the embedding
renders as `List.map`.  The per-result console print at lines 304 to 311
reads dict keys and is embedded as `printCheck`, because a missing key there
raises `KeyError` and aborts `batch_submit`. -/

/-- Embedding of the chunked slicing loop `for i in range(0, len(hotkeys),
max_workers): batch = hotkeys[i:i + max_workers]` (lines 274 to 275), with
fuel equal to the list length (sufficient whenever `max_workers` is at
least 1; `max_workers = 0` raises `ValueError` in Python and is outside the
contract). -/
def chunkGo (C : Nat) : Nat → List HotkeyInfo → List (List HotkeyInfo)
  | 0, _ => []
  | _ + 1, [] => []
  | fuel + 1, x :: xs => (x :: xs).take C :: chunkGo C fuel ((x :: xs).drop C)

/-- The list of consecutive batches of size `C` that one repeat cycle
iterates over. -/
def chunkList (C : Nat) (l : List HotkeyInfo) : List (List HotkeyInfo) :=
  chunkGo C l.length l

/-- Embedding of the dict-key reads performed by the per-result print
(lines 304 to 311): `hotkey_short`, `wallet_name` and `hotkey_name` in both
branches, then `duration` on success and `error` on failure.  A `none` field
is an absent dict key and raises `KeyError`. -/
def printCheck (r : ResultRecord) : Except String Unit :=
  match r.hotkey_short with
  | none => Except.error "KeyError: hotkey_short"
  | some _ =>
    match r.wallet_name with
    | none => Except.error "KeyError: wallet_name"
    | some _ =>
      match r.hotkey_name with
      | none => Except.error "KeyError: hotkey_name"
      | some _ =>
        if r.success then
          match r.duration with
          | none => Except.error "KeyError: duration"
          | some _ => Except.ok ()
        else
          match r.error with
          | none => Except.error "KeyError: error"
          | some _ => Except.ok ()

/-- Boolean mirror of `printCheck` succeeding: all dict keys that the
per-result print reads are present. -/
def printableOk (r : ResultRecord) : Bool :=
  r.hotkey_short.isSome && r.wallet_name.isSome && r.hotkey_name.isSome &&
    (if r.success then r.duration.isSome else r.error.isSome)

/-- Embedding of the per-result processing of `batch_submit` (lines 291 to
311): replace an exception by the sparse failure dict built at lines 293 to
297, stamp `repeat_num`, then run the per-result print (whose missing-key
`KeyError` aborts the batch). -/
def processOne (info : HotkeyInfo) (taskResult : Except String ResultRecord)
    (repeat_num : Nat) : Except String ResultRecord :=
  let r0 : ResultRecord :=
    match taskResult with
    | Except.ok r => r
    | Except.error e =>
      { success := false,
        hotkey := info.ss58_address,
        hotkey_short := none,
        wallet_name := none,
        hotkey_name := none,
        response := none,
        error := some e,
        duration := none,
        repeat_num := none }
  let r1 := { r0 with repeat_num := some repeat_num }
  match printCheck r1 with
  | Except.error e => Except.error e
  | Except.ok _ => Except.ok r1

/-- Embedding of launching one batch with `asyncio.gather` and folding its
positionally aligned results through the per-result processing loop. -/
def processGroup (task : HotkeyInfo → Except String ResultRecord) (repeat_num : Nat) :
    List HotkeyInfo → Except String (List ResultRecord)
  | [] => Except.ok []
  | i :: rest =>
    match processOne i (task i) repeat_num with
    | Except.error e => Except.error e
    | Except.ok r =>
      match processGroup task repeat_num rest with
      | Except.error e => Except.error e
      | Except.ok rs => Except.ok (r :: rs)

/-- Embedding of the batch loop of one repeat cycle: each chunk is gathered
and processed in order, results concatenated (the inter-batch sleep has no
effect on the result value). -/
def runCycleChunks (task : HotkeyInfo → Except String ResultRecord) (repeat_num : Nat) :
    List (List HotkeyInfo) → Except String (List ResultRecord)
  | [] => Except.ok []
  | g :: gs =>
    match processGroup task repeat_num g with
    | Except.error e => Except.error e
    | Except.ok rs =>
      match runCycleChunks task repeat_num gs with
      | Except.error e => Except.error e
      | Except.ok rest => Except.ok (rs ++ rest)

/-- One repeat cycle of `batch_submit`: partition the hotkeys into
consecutive batches of size `max_workers` and process them in order. -/
def batchSubmitCycle (task : HotkeyInfo → Except String ResultRecord)
    (repeat_num : Nat) (max_workers : Nat) (hotkeys : List HotkeyInfo) :
    Except String (List ResultRecord) :=
  runCycleChunks task repeat_num (chunkList max_workers hotkeys)

/-- The repeat loop `for repeat_num in range(1, repeat + 1)` of
`batch_submit`, accumulating `all_results` by extension; `r0` is the current
repeat number and the second argument the number of cycles still to run. -/
def runRepeatsFrom (task : Nat → HotkeyInfo → Except String ResultRecord)
    (max_workers : Nat) (hotkeys : List HotkeyInfo) (r0 : Nat) :
    Nat → Except String (List ResultRecord)
  | 0 => Except.ok []
  | n + 1 =>
    match batchSubmitCycle (task r0) r0 max_workers hotkeys with
    | Except.error e => Except.error e
    | Except.ok rs =>
      match runRepeatsFrom task max_workers hotkeys (r0 + 1) n with
      | Except.error e => Except.error e
      | Except.ok rest => Except.ok (rs ++ rest)

/-- Embedding of `BatchSubmitter.batch_submit` (lines 232 to 328): `repeat`
cycles starting at repeat number 1.  `Except.error` is an uncaught exception
escaping `batch_submit` (aborting the whole batch). -/
def batch_submit (task : Nat → HotkeyInfo → Except String ResultRecord)
    (hotkeys : List HotkeyInfo) (max_workers : Nat) (repeat_count : Nat) :
    Except String (List ResultRecord) :=
  runRepeatsFrom task max_workers hotkeys 1 repeat_count

/-! ## Result aggregation (embedding of `BatchSubmitter.print_summary`) -/

/-- The summary statistics printed by `print_summary`; `avg_duration = none`
means the average line is not printed at all (the `successful > 0` guard at
line 352).  The per-repeat breakdown and failed-item listing are pure
printing over the same counts and are not separately modelled. -/
structure Summary where
  total : Nat
  successful : Nat
  failed : Nat
  avg_duration : Option ℚ
  deriving DecidableEq

/-- Embedding of the generator `sum(r["duration"] for r in results if
r["success"])` of line 353: the durations of the successful entries in
order, with a `KeyError` if a successful entry lacks the key. -/
def successDurations : List ResultRecord → Except String (List ℚ)
  | [] => Except.ok []
  | r :: rs =>
    if r.success then
      match r.duration with
      | none => Except.error "KeyError: duration"
      | some d =>
        match successDurations rs with
        | Except.error e => Except.error e
        | Except.ok ds => Except.ok (d :: ds)
    else successDurations rs

/-- Embedding of the statistics part of `BatchSubmitter.print_summary`
(lines 330 to 356). -/
def print_summary (results : List ResultRecord) : Except String Summary :=
  if 0 < results.countP (fun r => r.success) then
    match successDurations results with
    | Except.error e => Except.error e
    | Except.ok ds =>
      Except.ok { total := results.length,
                  successful := results.countP (fun r => r.success),
                  failed := results.length - results.countP (fun r => r.success),
                  avg_duration := some (ds.sum / (results.countP (fun r => r.success) : ℚ)) }
  else
    Except.ok { total := results.length,
                successful := results.countP (fun r => r.success),
                failed := results.length - results.countP (fun r => r.success),
                avg_duration := none }

/-! ## Process entry point (embedding of `main`, lines 367 to 540) -/

/-- Embedding of Python `str.strip()` with no argument: remove leading and
trailing whitespace (the source only ever tests the stripped payload for
emptiness). -/
def pyStrip (s : String) : String :=
  String.mk (((s.data.dropWhile Char.isWhitespace).reverse.dropWhile Char.isWhitespace).reverse)

/-- The configuration-error conditions that `main` checks before any
submission: missing payload file, unreadable payload file, payload empty
after stripping, empty identity set. -/
def configError (solutionExists : Bool) (readResult : Except String String)
    (hotkeys : List HotkeyInfo) : Bool :=
  if solutionExists = false then true
  else
    match readResult with
    | Except.error _ => true
    | Except.ok raw => pyStrip raw == "" || hotkeys.isEmpty

/-- Embedding of `main` (lines 367 to 540) reduced to its exit code.  File
existence, the result of reading the payload file, the discovered hotkeys
and the dry-run flag are environment parameters; an exception escaping
`batch_submit` terminates the process with a traceback, which CPython
reports as exit code 1. -/
def mainEntry (solutionExists : Bool) (readResult : Except String String)
    (hotkeys : List HotkeyInfo) (dryRun : Bool)
    (task : Nat → HotkeyInfo → Except String ResultRecord)
    (max_workers : Nat) (repeat_count : Nat) : Nat :=
  if solutionExists = false then 1
  else
    match readResult with
    | Except.error _ => 1
    | Except.ok raw =>
      if pyStrip raw == "" then 1
      else if hotkeys.isEmpty then 1
      else if dryRun then 0
      else
        match batch_submit task hotkeys max_workers repeat_count with
        | Except.error _ => 1
        | Except.ok results => if results.all (fun r => r.success) then 0 else 1

/-! ## Spec-side ordering function

The following definition is written from the specification, not from the
source: it is the explicit cycle-major, group-major, input-order listing of
outcomes that the spec claims `batch_submit` produces deterministically.
The refinement theorems below compare `batch_submit` against it. -/

/-- Spec-side description of the outcome list: for each repeat number
`r0, r0 + 1, ...` (n cycles), every hotkey in input order, each outcome
stamped with its repeat number. -/
def specOrderedOutcomes (recOf : Nat → HotkeyInfo → ResultRecord)
    (hotkeys : List HotkeyInfo) (r0 : Nat) : Nat → List ResultRecord
  | 0 => []
  | n + 1 =>
    (hotkeys.map (fun i => { recOf r0 i with repeat_num := some r0 })) ++
      specOrderedOutcomes recOf hotkeys (r0 + 1) n

/-! ## Lemmas about decimal and hexadecimal rendering -/

theorem digitChar_toNat_lt_10 : ∀ d, d < 10 → (Nat.digitChar d).toNat = 48 + d := by decide

theorem digitChar_isDigit_lt_10 : ∀ d, d < 10 → (Nat.digitChar d).isDigit = true := by decide

theorem digitChar_hex_shape : ∀ d, d < 16 →
    ((Nat.digitChar d).isDigit = true ∨ ('a' ≤ Nat.digitChar d ∧ Nat.digitChar d ≤ 'f')) ∧
      Nat.digitChar d ≠ '.' := by decide

theorem isDigit_ne_dot (c : Char) (h : c.isDigit = true) : c ≠ '.' := by
  intro he
  subst he
  exact absurd h (by decide)

theorem natDecAux_mem (fuel : Nat) : ∀ n c, c ∈ natDecAux fuel n →
    ∃ d, d < 10 ∧ c = Nat.digitChar d := by
  induction fuel with
  | zero => intro n c hc; simp [natDecAux] at hc
  | succ fuel ih =>
    intro n c hc
    by_cases h0 : n = 0
    · simp [natDecAux, h0] at hc
    · rw [natDecAux, if_neg h0] at hc
      rcases List.mem_append.mp hc with hl | hr
      · exact ih (n / 10) c hl
      · refine ⟨n % 10, Nat.mod_lt _ (by norm_num), ?_⟩
        simpa using hr

theorem charsVal_append_one (l : List Char) (c : Char) :
    charsVal (l ++ [c]) = 10 * charsVal l + (c.toNat - 48) := by
  simp [charsVal, List.foldl_append]

theorem charsVal_natDecAux (fuel : Nat) : ∀ n, n ≤ fuel → charsVal (natDecAux fuel n) = n := by
  induction fuel with
  | zero =>
    intro n hn
    have h0 : n = 0 := by omega
    subst h0
    rfl
  | succ fuel ih =>
    intro n hn
    by_cases h0 : n = 0
    · subst h0; rfl
    · have hdiv : n / 10 < n := Nat.div_lt_self (Nat.pos_of_ne_zero h0) (by norm_num)
      rw [natDecAux, if_neg h0, charsVal_append_one, ih (n / 10) (by omega),
          digitChar_toNat_lt_10 (n % 10) (Nat.mod_lt _ (by norm_num))]
      omega

theorem charsVal_natDecimal (n : Nat) : charsVal (natDecimal n).data = n := by
  by_cases h : n = 0
  · subst h; rfl
  · rw [natDecimal, if_neg h]
    exact charsVal_natDecAux n n le_rfl

theorem natDecimal_inj {a b : Nat} (h : natDecimal a = natDecimal b) : a = b := by
  have h2 := congrArg (fun s => charsVal s.data) h
  simpa [charsVal_natDecimal] using h2

theorem natDecimal_chars (n : Nat) : ∀ c ∈ (natDecimal n).data, c.isDigit = true := by
  by_cases h : n = 0
  · subst h
    intro c hc
    have : c = '0' := by simpa [natDecimal] using hc
    subst this
    decide
  · intro c hc
    rw [natDecimal, if_neg h] at hc
    obtain ⟨d, hd, rfl⟩ := natDecAux_mem n n c hc
    exact digitChar_isDigit_lt_10 d hd

theorem bytesToHex_chars (bs : List Nat) :
    ∀ c ∈ (bytesToHex bs).data, ∃ d, d < 16 ∧ c = Nat.digitChar d := by
  intro c hc
  have hc2 : c ∈ (bs.map byteToHexChars).flatten := hc
  obtain ⟨g, hg, hcg⟩ := List.mem_flatten.mp hc2
  obtain ⟨b, hb, rfl⟩ := List.mem_map.mp hg
  have hb256 : b % 256 < 256 := Nat.mod_lt _ (by norm_num)
  simp only [byteToHexChars, List.mem_cons, List.mem_singleton, List.not_mem_nil, or_false] at hcg
  rcases hcg with rfl | rfl
  · exact ⟨b % 256 / 16, Nat.div_lt_of_lt_mul (by omega), rfl⟩
  · exact ⟨b % 16, Nat.mod_lt _ (by norm_num), rfl⟩

theorem countP_dot_zero {l : List Char} (h : ∀ c ∈ l, c ≠ '.') :
    l.countP (fun c => c == '.') = 0 := by
  rw [List.countP_eq_zero]
  intro c hc
  simpa using h c hc

/-! ## Lemmas about the batch partition -/

theorem chunkGo_nil (C fuel : Nat) : chunkGo C fuel [] = [] := by
  cases fuel <;> rfl

theorem chunkGo_cons (C fuel : Nat) (x : HotkeyInfo) (xs : List HotkeyInfo) :
    chunkGo C (fuel + 1) (x :: xs)
      = (x :: xs).take C :: chunkGo C fuel ((x :: xs).drop C) := rfl

theorem length_drop_cons (C : Nat) (x : HotkeyInfo) (xs : List HotkeyInfo) :
    ((x :: xs).drop C).length = xs.length + 1 - C := by
  simp [List.length_drop]

theorem flatten_chunkGo (C : Nat) (hC : 1 ≤ C) :
    ∀ fuel (l : List HotkeyInfo), l.length ≤ fuel → (chunkGo C fuel l).flatten = l := by
  intro fuel
  induction fuel with
  | zero =>
    intro l hl
    cases l with
    | nil => rfl
    | cons x xs => simp at hl
  | succ fuel ih =>
    intro l hl
    cases l with
    | nil => rfl
    | cons x xs =>
      have hxs : xs.length + 1 ≤ fuel + 1 := by simpa using hl
      rw [chunkGo_cons, List.flatten_cons,
          ih ((x :: xs).drop C) (by rw [length_drop_cons]; omega)]
      exact List.take_append_drop C (x :: xs)

theorem length_chunkGo (C : Nat) (hC : 1 ≤ C) :
    ∀ fuel (l : List HotkeyInfo), l.length ≤ fuel →
      (chunkGo C fuel l).length = (l.length + C - 1) / C := by
  intro fuel
  induction fuel with
  | zero =>
    intro l hl
    cases l with
    | nil =>
      show (0 : Nat) = (0 + C - 1) / C
      rw [Nat.div_eq_of_lt (by omega)]
    | cons x xs => simp at hl
  | succ fuel ih =>
    intro l hl
    cases l with
    | nil =>
      show (0 : Nat) = (0 + C - 1) / C
      rw [Nat.div_eq_of_lt (by omega)]
    | cons x xs =>
      have hxs : xs.length + 1 ≤ fuel + 1 := by simpa using hl
      rw [chunkGo_cons, List.length_cons,
          ih ((x :: xs).drop C) (by rw [length_drop_cons]; omega),
          length_drop_cons, List.length_cons]
      by_cases hCle : C ≤ xs.length + 1
      · have he : xs.length + 1 + C - 1 = (xs.length + 1 - C + C - 1) + C := by omega
        rw [he, Nat.add_div_right _ (by omega)]
      · have h1 : xs.length + 1 - C = 0 := by omega
        have he : xs.length + 1 + C - 1 = xs.length + C := by omega
        rw [h1, he, Nat.add_div_right _ (by omega),
            Nat.div_eq_of_lt (show 0 + C - 1 < C by omega),
            Nat.div_eq_of_lt (show xs.length < C by omega)]

theorem mem_chunkGo (C : Nat) (hC : 1 ≤ C) :
    ∀ fuel (l : List HotkeyInfo), l.length ≤ fuel →
      ∀ g ∈ chunkGo C fuel l, g.length ≤ C ∧ g ≠ [] := by
  intro fuel
  induction fuel with
  | zero =>
    intro l hl g hg
    cases l with
    | nil => simp [chunkGo_nil] at hg
    | cons x xs => simp at hl
  | succ fuel ih =>
    intro l hl g hg
    cases l with
    | nil => simp [chunkGo_nil] at hg
    | cons x xs =>
      have hxs : xs.length + 1 ≤ fuel + 1 := by simpa using hl
      rw [chunkGo_cons, List.mem_cons] at hg
      rcases hg with rfl | hg
      · constructor
        · rw [List.length_take]
          exact min_le_left _ _
        · cases C with
          | zero => omega
          | succ C => simp
      · exact ih ((x :: xs).drop C) (by rw [length_drop_cons]; omega) g hg

theorem chunkGo_full (C : Nat) (hC : 1 ≤ C) :
    ∀ fuel (l : List HotkeyInfo), l.length ≤ fuel →
      ∀ i, (h : i + 1 < (chunkGo C fuel l).length) →
        ((chunkGo C fuel l).get ⟨i, Nat.lt_of_succ_lt h⟩).length = C := by
  intro fuel
  induction fuel with
  | zero =>
    intro l hl i h
    cases l with
    | nil => simp [chunkGo_nil] at h
    | cons x xs => simp at hl
  | succ fuel ih =>
    intro l hl i h
    cases l with
    | nil => simp [chunkGo_nil] at h
    | cons x xs =>
      have hxs : xs.length + 1 ≤ fuel + 1 := by simpa using hl
      cases i with
      | zero =>
        have hrest : chunkGo C fuel ((x :: xs).drop C) ≠ [] := by
          intro hnil
          rw [chunkGo_cons, List.length_cons, hnil] at h
          simp at h
        have hdrop : (x :: xs).drop C ≠ [] := by
          intro hnil
          rw [hnil, chunkGo_nil] at hrest
          exact hrest rfl
        have hlen : C < xs.length + 1 := by
          by_contra hle
          push_neg at hle
          exact hdrop (List.drop_eq_nil_iff.mpr (by simpa using hle))
        show ((chunkGo C (fuel + 1) (x :: xs)).get ⟨0, _⟩).length = C
        rw [show (chunkGo C (fuel + 1) (x :: xs)).get ⟨0, Nat.lt_of_succ_lt h⟩
              = (x :: xs).take C from rfl, List.length_take]
        simp only [List.length_cons]
        omega
      | succ j =>
        have hlen2 : ((x :: xs).drop C).length ≤ fuel := by
          rw [length_drop_cons]; omega
        have hlen3 : (chunkGo C (fuel + 1) (x :: xs)).length
            = (chunkGo C fuel ((x :: xs).drop C)).length + 1 := by
          rw [chunkGo_cons, List.length_cons]
        have h2 : j + 1 < (chunkGo C fuel ((x :: xs).drop C)).length := by
          rw [hlen3] at h
          omega
        have hrec := ih ((x :: xs).drop C) hlen2 j h2
        rw [show (chunkGo C (fuel + 1) (x :: xs)).get ⟨j + 1, Nat.lt_of_succ_lt h⟩
              = (chunkGo C fuel ((x :: xs).drop C)).get ⟨j, Nat.lt_of_succ_lt h2⟩ from rfl]
        exact hrec

/-! ## Lemmas about the scheduler -/

theorem printableOk_stamp (r : ResultRecord) (n : Nat) :
    printableOk { r with repeat_num := some n } = printableOk r := rfl

theorem printCheck_ok_of_printableOk (r : ResultRecord) (h : printableOk r = true) :
    printCheck r = Except.ok () := by
  unfold printableOk at h
  simp only [Bool.and_eq_true] at h
  obtain ⟨⟨⟨ha, hb⟩, hc⟩, hd⟩ := h
  obtain ⟨s, hs⟩ := Option.isSome_iff_exists.mp ha
  obtain ⟨w, hw⟩ := Option.isSome_iff_exists.mp hb
  obtain ⟨n, hn⟩ := Option.isSome_iff_exists.mp hc
  by_cases hsucc : r.success = true
  · rw [if_pos hsucc] at hd
    obtain ⟨d, hdur⟩ := Option.isSome_iff_exists.mp hd
    simp [printCheck, hs, hw, hn, hdur, hsucc]
  · rw [if_neg hsucc] at hd
    obtain ⟨e, he⟩ := Option.isSome_iff_exists.mp hd
    simp [printCheck, hs, hw, hn, he, hsucc]

theorem printableOk_submit_single (info : HotkeyInfo) (attempt : Except String HttpResponse)
    (d1 d2 : ℚ) : printableOk (submit_single info attempt d1 d2) = true := by
  rcases attempt with e | resp
  · rfl
  · by_cases h : resp.status = 200
    · rcases hj : resp.json with e | v <;> simp [submit_single, printableOk, h, hj]
    · simp [submit_single, printableOk, h]

theorem processOne_ok (info : HotkeyInfo) (rec : ResultRecord) (n : Nat)
    (h : printableOk rec = true) :
    processOne info (Except.ok rec) n = Except.ok { rec with repeat_num := some n } := by
  have hpc : printCheck { rec with repeat_num := some n } = Except.ok () :=
    printCheck_ok_of_printableOk _ (by rw [printableOk_stamp]; exact h)
  simp [processOne, hpc]

theorem processGroup_ok (task : HotkeyInfo → Except String ResultRecord)
    (recOf : HotkeyInfo → ResultRecord) (n : Nat) (g : List HotkeyInfo)
    (h : ∀ i ∈ g, task i = Except.ok (recOf i) ∧ printableOk (recOf i) = true) :
    processGroup task n g
      = Except.ok (g.map (fun i => { recOf i with repeat_num := some n })) := by
  induction g with
  | nil => rfl
  | cons x xs ih =>
    obtain ⟨hx1, hx2⟩ := h x (by simp)
    have hxs := ih (fun i hi => h i (by simp [hi]))
    simp only [processGroup, hx1, processOne_ok x (recOf x) n hx2, hxs, List.map_cons]

theorem runCycleChunks_ok (task : HotkeyInfo → Except String ResultRecord)
    (recOf : HotkeyInfo → ResultRecord) (n : Nat) (gs : List (List HotkeyInfo))
    (h : ∀ g ∈ gs, ∀ i ∈ g, task i = Except.ok (recOf i) ∧ printableOk (recOf i) = true) :
    runCycleChunks task n gs
      = Except.ok (gs.flatten.map (fun i => { recOf i with repeat_num := some n })) := by
  induction gs with
  | nil => rfl
  | cons g gs ih =>
    have hg := processGroup_ok task recOf n g (h g (by simp))
    have hgs := ih (fun g2 hg2 => h g2 (by simp [hg2]))
    simp only [runCycleChunks, hg, hgs, List.flatten_cons, List.map_append]

theorem batchSubmitCycle_ok (task : HotkeyInfo → Except String ResultRecord)
    (recOf : HotkeyInfo → ResultRecord) (n C : Nat) (hC : 1 ≤ C) (ids : List HotkeyInfo)
    (h : ∀ i ∈ ids, task i = Except.ok (recOf i) ∧ printableOk (recOf i) = true) :
    batchSubmitCycle task n C ids
      = Except.ok (ids.map (fun i => { recOf i with repeat_num := some n })) := by
  unfold batchSubmitCycle
  have hflat : (chunkList C ids).flatten = ids :=
    flatten_chunkGo C hC ids.length ids le_rfl
  have h2 : ∀ g ∈ chunkList C ids, ∀ i ∈ g,
      task i = Except.ok (recOf i) ∧ printableOk (recOf i) = true := by
    intro g hg i hi
    apply h
    rw [← hflat]
    exact List.mem_flatten.mpr ⟨g, hg, hi⟩
  rw [runCycleChunks_ok task recOf n (chunkList C ids) h2, hflat]

theorem runRepeatsFrom_ok (task : Nat → HotkeyInfo → Except String ResultRecord)
    (recOf : Nat → HotkeyInfo → ResultRecord) (C : Nat) (hC : 1 ≤ C)
    (ids : List HotkeyInfo)
    (h : ∀ r, ∀ i ∈ ids, task r i = Except.ok (recOf r i) ∧ printableOk (recOf r i) = true) :
    ∀ n r0, runRepeatsFrom task C ids r0 n = Except.ok (specOrderedOutcomes recOf ids r0 n) := by
  intro n
  induction n with
  | zero => intro r0; rfl
  | succ n ih =>
    intro r0
    simp only [runRepeatsFrom, batchSubmitCycle_ok (task r0) (recOf r0) r0 C hC ids (h r0),
      ih r0.succ, specOrderedOutcomes]

theorem specOrderedOutcomes_length (recOf : Nat → HotkeyInfo → ResultRecord)
    (ids : List HotkeyInfo) :
    ∀ n r0, (specOrderedOutcomes recOf ids r0 n).length = ids.length * n := by
  intro n
  induction n with
  | zero => intro r0; simp [specOrderedOutcomes]
  | succ n ih =>
    intro r0
    simp only [specOrderedOutcomes, List.length_append, List.length_map, ih (r0 + 1),
      Nat.mul_succ]
    omega

theorem countP_const {α : Type} (b : Bool) (l : List α) :
    l.countP (fun _ => b) = if b then l.length else 0 := by
  induction l with
  | nil => cases b <;> simp
  | cons x xs ih => cases b <;> simp_all [List.countP_cons]

theorem countP_stamped_block (recOf : Nat → HotkeyInfo → ResultRecord)
    (ids : List HotkeyInfo) (r0 r : Nat) :
    (ids.map (fun i => { recOf r0 i with repeat_num := some r0 })).countP
        (fun x => x.repeat_num == some r)
      = if r0 = r then ids.length else 0 := by
  rw [List.countP_map]
  have hcomp : ((fun x : ResultRecord => x.repeat_num == some r) ∘
      (fun i => { recOf r0 i with repeat_num := some r0 }))
      = fun _ => ((some r0 == some r : Bool)) := rfl
  rw [hcomp, countP_const]
  by_cases h : r0 = r
  · subst h; simp
  · simp [h]

theorem countP_specOrderedOutcomes (recOf : Nat → HotkeyInfo → ResultRecord)
    (ids : List HotkeyInfo) (r : Nat) :
    ∀ n r0, (specOrderedOutcomes recOf ids r0 n).countP (fun x => x.repeat_num == some r)
      = if r0 ≤ r ∧ r < r0 + n then ids.length else 0 := by
  intro n
  induction n with
  | zero =>
    intro r0
    rw [if_neg (by omega)]
    rfl
  | succ n ih =>
    intro r0
    simp only [specOrderedOutcomes, List.countP_append, countP_stamped_block, ih (r0 + 1)]
    by_cases h1 : r0 = r
    · subst h1
      rw [if_pos rfl, if_neg (by omega), if_pos (by omega)]
      omega
    · rw [if_neg h1]
      by_cases h2 : r0 + 1 ≤ r ∧ r < r0 + 1 + n
      · rw [if_pos h2, if_pos (by omega)]
        omega
      · rw [if_neg h2, if_neg (by omega)]

/-! ## Lemmas about the summary -/

theorem successDurations_eq (results : List ResultRecord)
    (h : ∀ r ∈ results, r.success = true → r.duration.isSome = true) :
    successDurations results
      = Except.ok ((results.filter (fun r => r.success)).filterMap (fun r => r.duration)) := by
  induction results with
  | nil => rfl
  | cons x xs ih =>
    have hxs := ih (fun r hr => h r (by simp [hr]))
    by_cases hx : x.success = true
    · obtain ⟨d, hd⟩ := Option.isSome_iff_exists.mp (h x (by simp) hx)
      simp [successDurations, hx, hd, hxs, List.filter_cons, List.filterMap_cons]
    · simp [successDurations, hx, hxs, List.filter_cons]

/-! ## Concrete fixtures used to instantiate the claim theorems -/

/-- Sample hotkey record number k. -/
def sampleInfo (k : Nat) : HotkeyInfo :=
  { wallet_name := "w", hotkey_name := "hk" ++ natDecimal k, hotkey_path := "p",
    ss58_address := "addr" ++ natDecimal k }

/-- Sample successful HTTP response. -/
def sampleResp : HttpResponse :=
  { status := 200, text := "body", json := Except.ok "parsed" }

/-- Sample rejected HTTP response. -/
def sampleResp500 : HttpResponse :=
  { status := 500, text := "oops", json := Except.error "bad" }

/-- Sample fully populated per-submission result. -/
def sampleRec (i : HotkeyInfo) : ResultRecord :=
  submit_single i (Except.ok sampleResp) 1 1

/-- Sample identity list of three hotkeys. -/
def sampleIds : List HotkeyInfo := [sampleInfo 0, sampleInfo 1, sampleInfo 2]

/-- Sample task family in which every submission completes normally. -/
def sampleTask (r : Nat) (i : HotkeyInfo) : Except String ResultRecord :=
  Except.ok (sampleRec i)

/-- Sample stand-in for the SHA-256 primitive. -/
def sampleSha (bs : List Nat) : List Nat := [7, 255]

/-- Sample stand-in for the keypair signing primitive. -/
def sampleSign (s : String) : List Nat := [1, 171]

/-! ## Claim theorems -/

/-- C1: for every identity list of length N and every max_concurrency C with
C at least 1, one repeat cycle of the batch scheduler issues exactly N
submissions, one per identity: the cycle partitions the identities into
ceil(N/C) consecutive groups of size at most C, taken in discovery order
without re-sorting (the concatenation of the groups is the identity list
itself), every group except possibly the last has size exactly C, and the
cycle produces exactly N outcomes. -/
theorem scheduler_partition_per_cycle
    (task : HotkeyInfo → Except String ResultRecord) (recOf : HotkeyInfo → ResultRecord)
    (ids : List HotkeyInfo) (C r : Nat) (hC : 1 ≤ C)
    (htask : ∀ i ∈ ids, task i = Except.ok (recOf i) ∧ printableOk (recOf i) = true) :
    (∃ l, batchSubmitCycle task r C ids = Except.ok l ∧ l.length = ids.length) ∧
    (chunkList C ids).flatten = ids ∧
    (chunkList C ids).length = (ids.length + C - 1) / C ∧
    (∀ g ∈ chunkList C ids, g.length ≤ C ∧ g ≠ []) ∧
    (∀ i : Nat, (h : i + 1 < (chunkList C ids).length) →
      ((chunkList C ids).get ⟨i, Nat.lt_of_succ_lt h⟩).length = C) :=
  ⟨⟨_, batchSubmitCycle_ok task recOf r C hC ids htask, by simp⟩,
    flatten_chunkGo C hC ids.length ids le_rfl,
    length_chunkGo C hC ids.length ids le_rfl,
    mem_chunkGo C hC ids.length ids le_rfl,
    chunkGo_full C hC ids.length ids le_rfl⟩

/-- Witness for C1 at three identities and max_concurrency 2. -/
theorem scheduler_partition_per_cycle_witness :
    (∃ l, batchSubmitCycle (fun i => Except.ok (sampleRec i)) 1 2 sampleIds = Except.ok l ∧
      l.length = sampleIds.length) ∧
    (chunkList 2 sampleIds).flatten = sampleIds ∧
    (chunkList 2 sampleIds).length = (sampleIds.length + 2 - 1) / 2 := by
  have h := scheduler_partition_per_cycle (fun i => Except.ok (sampleRec i)) sampleRec
    sampleIds 2 1 (by decide)
    (fun i hi => ⟨rfl, printableOk_submit_single i (Except.ok sampleResp) 1 1⟩)
  exact ⟨h.1, h.2.1, h.2.2.1⟩

/-- C2: for every identity list of length N, C at least 1 and repeat count R
at least 1, when every per-identity task completes normally the scheduler
returns exactly N times R outcomes, and for each repeat number r between 1
and R exactly N outcomes carry repeat_num = r. -/
theorem batch_outcome_counts
    (task : Nat → HotkeyInfo → Except String ResultRecord)
    (recOf : Nat → HotkeyInfo → ResultRecord)
    (ids : List HotkeyInfo) (C R : Nat) (hC : 1 ≤ C) (hR : 1 ≤ R)
    (htask : ∀ r, ∀ i ∈ ids,
      task r i = Except.ok (recOf r i) ∧ printableOk (recOf r i) = true) :
    ∃ l, batch_submit task ids C R = Except.ok l ∧
      l.length = ids.length * R ∧
      ∀ r, 1 ≤ r → r ≤ R → l.countP (fun x => x.repeat_num == some r) = ids.length := by
  refine ⟨specOrderedOutcomes recOf ids 1 R,
    runRepeatsFrom_ok task recOf C hC ids htask R 1,
    specOrderedOutcomes_length recOf ids R 1, ?_⟩
  intro r h1 h2
  rw [countP_specOrderedOutcomes recOf ids r R 1, if_pos (by omega)]

/-- Witness for C2 at three identities, max_concurrency 2 and two repeats. -/
theorem batch_outcome_counts_witness :
    ∃ l, batch_submit sampleTask sampleIds 2 2 = Except.ok l ∧
      l.length = sampleIds.length * 2 ∧
      ∀ r, 1 ≤ r → r ≤ 2 → l.countP (fun x => x.repeat_num == some r) = sampleIds.length :=
  batch_outcome_counts sampleTask (fun _ i => sampleRec i) sampleIds 2 2 (by decide) (by decide)
    (fun r i hi => ⟨rfl, printableOk_submit_single i (Except.ok sampleResp) 1 1⟩)

/-- C10: with every task completing normally, the batch scheduler output is
exactly the cycle-major, group-major, input-order listing of per-identity
outcomes: the gather join is positionally aligned with the launched tasks,
so the full outcome list is a deterministic function of the identity list,
the per-cycle outcome records and the repeat count. -/
theorem batch_results_positionally_deterministic
    (task : Nat → HotkeyInfo → Except String ResultRecord)
    (recOf : Nat → HotkeyInfo → ResultRecord)
    (ids : List HotkeyInfo) (C R : Nat) (hC : 1 ≤ C)
    (htask : ∀ r, ∀ i ∈ ids,
      task r i = Except.ok (recOf r i) ∧ printableOk (recOf r i) = true) :
    batch_submit task ids C R = Except.ok (specOrderedOutcomes recOf ids 1 R) :=
  runRepeatsFrom_ok task recOf C hC ids htask R 1

/-- Witness for C10 at two identities, max_concurrency 1 and two repeats. -/
theorem batch_results_positionally_deterministic_witness :
    batch_submit sampleTask [sampleInfo 3, sampleInfo 4] 1 2
      = Except.ok (specOrderedOutcomes (fun _ i => sampleRec i)
          [sampleInfo 3, sampleInfo 4] 1 2) :=
  batch_results_positionally_deterministic sampleTask (fun _ i => sampleRec i)
    [sampleInfo 3, sampleInfo 4] 1 2 (by decide)
    (fun r i hi => ⟨rfl, printableOk_submit_single i (Except.ok sampleResp) 1 1⟩)

/-- C3: for every identity and every observed HTTP response, the outcome of a
single submission has success = true exactly when the status is 200; on
status 200 the parsed JSON body is stored in the outcome, and on any other
status the outcome is a failure whose error message is the string
HTTP status colon body text. -/
theorem submission_success_iff_status_200 (info : HotkeyInfo) (resp : HttpResponse)
    (d1 d2 : ℚ) :
    ((submit_single info (Except.ok resp) d1 d2).success = true ↔ resp.status = 200) ∧
    (∀ v, resp.status = 200 → resp.json = Except.ok v →
      (submit_single info (Except.ok resp) d1 d2).response = some v) ∧
    (resp.status ≠ 200 →
      (submit_single info (Except.ok resp) d1 d2).success = false ∧
      (submit_single info (Except.ok resp) d1 d2).error
        = some ("HTTP " ++ natDecimal resp.status ++ ": " ++ resp.text)) := by
  by_cases h : resp.status = 200
  · refine ⟨?_, ?_, fun hne => absurd h hne⟩
    · rcases hj : resp.json with e | v <;> simp [submit_single, h, hj]
    · intro v h200 hjson
      simp [submit_single, h, hjson]
  · refine ⟨?_, fun v h200 _ => absurd h200 h, fun _ => ?_⟩
    · simp [submit_single, h]
    · constructor <;> simp [submit_single, h]

/-- Witness for C3 at a concrete 500 response. -/
theorem submission_success_iff_status_200_witness :
    (submit_single (sampleInfo 5) (Except.ok sampleResp500) 1 2).success = false ∧
    (submit_single (sampleInfo 5) (Except.ok sampleResp500) 1 2).error
      = some "HTTP 500: oops" := by
  have h := submission_success_iff_status_200 (sampleInfo 5) sampleResp500 1 2
  have h2 := h.2.2 (by decide)
  exact ⟨h2.1, by rw [h2.2]; decide⟩

/-- C4: for every payload body, the signed message is exactly the three-field
dot-joined string digest dot timestamp dot with an empty third field (the
trailing delimiter is present and the message contains exactly two dots),
the digest is the lowercase hex rendering of the SHA-256 digest of the
canonical body bytes (its characters are decimal digits or the lowercase
letters a to f, never a dot), and the emitted signature header is the
hex-encoded signature prefixed with 0x. -/
theorem signed_message_format (sha : List Nat → List Nat) (sign : String → List Nat)
    (ss58 : String) (sv ts : Nat) (rid : String) (body : List Nat) :
    signedMessage sha ts body = bytesToHex (sha body) ++ "." ++ natDecimal ts ++ "." ∧
    (generate_header sha sign ss58 sv ts rid body).epistula_request_signature
      = "0x" ++ bytesToHex (sign (signedMessage sha ts body)) ∧
    (∀ c ∈ (bytesToHex (sha body)).data,
      (c.isDigit = true ∨ ('a' ≤ c ∧ c ≤ 'f')) ∧ c ≠ '.') ∧
    (∀ c ∈ (natDecimal ts).data, c.isDigit = true) ∧
    (signedMessage sha ts body).data.countP (fun c => c == '.') = 2 := by
  have hdigest : ∀ c ∈ (bytesToHex (sha body)).data,
      (c.isDigit = true ∨ ('a' ≤ c ∧ c ≤ 'f')) ∧ c ≠ '.' := by
    intro c hc
    obtain ⟨d, hd, rfl⟩ := bytesToHex_chars (sha body) c hc
    exact digitChar_hex_shape d hd
  refine ⟨rfl, rfl, hdigest, natDecimal_chars ts, ?_⟩
  have h1 : ∀ c ∈ (bytesToHex (sha body)).data, c ≠ '.' :=
    fun c hc => (hdigest c hc).2
  have h2 : ∀ c ∈ (natDecimal ts).data, c ≠ '.' :=
    fun c hc => isDigit_ne_dot c (natDecimal_chars ts c hc)
  show ((bytesToHex (sha body) ++ "." ++ natDecimal ts ++ ".").data).countP
      (fun c => c == '.') = 2
  rw [String.data_append, String.data_append, String.data_append,
      List.countP_append, List.countP_append, List.countP_append,
      countP_dot_zero h1, countP_dot_zero h2]
  rfl

/-- Witness for C4 at a concrete body, timestamp and primitives. -/
theorem signed_message_format_witness :
    signedMessage sampleSha 5 [0, 255]
      = bytesToHex (sampleSha [0, 255]) ++ "." ++ natDecimal 5 ++ "." ∧
    (generate_header sampleSha sampleSign "addr" 100000 5 "uuid" [0, 255]).epistula_request_signature
      = "0x" ++ bytesToHex (sampleSign (signedMessage sampleSha 5 [0, 255])) ∧
    (signedMessage sampleSha 5 [0, 255]).data.countP (fun c => c == '.') = 2 := by
  have h := signed_message_format sampleSha sampleSign "addr" 100000 5 "uuid" [0, 255]
  exact ⟨h.1, h.2.1, h.2.2.2.2⟩

/-- C5 counterexample: the canonical serialization of the submission request
with competition_id 1, round_number -1 and raw_code "x" renders the two
integer fields as unquoted JSON numbers, not as strings: the claim that all
non-string scalar values are rendered as strings fails on this input
(`default=str` only fires for values that are not natively serializable,
and ints are natively serializable). -/
theorem create_message_body_ints_unquoted :
    create_message_body (submitRequestDict 1 (-1) "x")
        = utf8Encode "\x7b\"competition_id\": 1, \"raw_code\": \"x\", \"round_number\": -1\x7d" ∧
    create_message_body (submitRequestDict 1 (-1) "x")
        ≠ utf8Encode "\x7b\"competition_id\": \"1\", \"raw_code\": \"x\", \"round_number\": \"-1\"\x7d" :=
  ⟨by decide, by decide⟩

/-- C5 amended: the canonical serialization covered by the signature has its
keys in lexicographic order (competition_id, raw_code, round_number), while
the integer competition_id and round_number values are rendered as unquoted
decimal numbers and only string values are quoted. -/
theorem canonical_serialization_sorted_keys (cid rn : Int) (code : String) :
    sortKvs (submitRequestDict cid rn code)
      = [("competition_id", PyVal.pint cid), ("raw_code", PyVal.pstr code),
         ("round_number", PyVal.pint rn)] ∧
    json_dumps_sorted (submitRequestDict cid rn code)
      = "\x7b" ++ jsonQuote "competition_id" ++ ": " ++ intDecimal cid ++ ", "
        ++ jsonQuote "raw_code" ++ ": " ++ jsonQuote code ++ ", "
        ++ jsonQuote "round_number" ++ ": " ++ intDecimal rn ++ "\x7d" ∧
    create_message_body (submitRequestDict cid rn code)
      = utf8Encode ("\x7b" ++ jsonQuote "competition_id" ++ ": " ++ intDecimal cid ++ ", "
        ++ jsonQuote "raw_code" ++ ": " ++ jsonQuote code ++ ", "
        ++ jsonQuote "round_number" ++ ": " ++ intDecimal rn ++ "\x7d") := by
  have hsort : sortKvs (submitRequestDict cid rn code)
      = [("competition_id", PyVal.pint cid), ("raw_code", PyVal.pstr code),
         ("round_number", PyVal.pint rn)] := rfl
  have hdump : json_dumps_sorted (submitRequestDict cid rn code)
      = "\x7b" ++ jsonQuote "competition_id" ++ ": " ++ intDecimal cid ++ ", "
        ++ jsonQuote "raw_code" ++ ": " ++ jsonQuote code ++ ", "
        ++ jsonQuote "round_number" ++ ": " ++ intDecimal rn ++ "\x7d" := by
    apply String.ext
    simp only [json_dumps_sorted, hsort, renderEntries, renderKV, renderPyVal,
      String.data_append, List.append_assoc]
  exact ⟨hsort, hdump, congrArg utf8Encode hdump⟩

/-- Sample task family in which the identity with address addr0 raises an
uncaught fault while every other identity completes normally. -/
def sampleFaultTask (r : Nat) (i : HotkeyInfo) : Except String ResultRecord :=
  if i.ss58_address = (sampleInfo 0).ss58_address then Except.error "boom"
  else Except.ok (sampleRec i)

/-- C6 (code bug): when one task of a group raises an uncaught fault, the
scheduler converts it to a sparse failure dict carrying only success, hotkey
and error, but the per-result print then immediately reads the key
hotkey_short, which the sparse dict lacks: the KeyError escapes batch_submit
and aborts the whole batch (losing the sibling outcome as well), contrary to
the claim that the batch completes normally with failure outcomes. -/
theorem task_fault_raises_keyerror_in_batch :
    batch_submit sampleFaultTask [sampleInfo 0, sampleInfo 1] 2 1
      = Except.error "KeyError: hotkey_short" := by decide

/-- C7: the process exit code is 1 on every configuration error (missing
payload file, unreadable payload file, payload empty after stripping, empty
identity set) regardless of the submission tasks, and in a real run (no
configuration error, not a dry run, scheduler returning normally) the exit
code is 0 exactly when every outcome of every repeat has success = true, and
1 when some outcome failed. -/
theorem exit_code_zero_iff_all_success (solutionExists : Bool)
    (readResult : Except String String) (hotkeys : List HotkeyInfo) (dryRun : Bool)
    (task : Nat → HotkeyInfo → Except String ResultRecord) (C R : Nat) :
    (configError solutionExists readResult hotkeys = true →
      mainEntry solutionExists readResult hotkeys dryRun task C R = 1) ∧
    (configError solutionExists readResult hotkeys = false → dryRun = false →
      ∀ l, batch_submit task hotkeys C R = Except.ok l →
        ((mainEntry solutionExists readResult hotkeys dryRun task C R = 0 ↔
            l.all (fun r => r.success) = true) ∧
          (l.all (fun r => r.success) = false →
            mainEntry solutionExists readResult hotkeys dryRun task C R = 1))) := by
  cases solutionExists with
  | false =>
    constructor
    · intro _; rfl
    · intro hc; simp [configError] at hc
  | true =>
    cases readResult with
    | error e =>
      constructor
      · intro _; rfl
      · intro hc; simp [configError] at hc
    | ok raw =>
      by_cases hstrip : (pyStrip raw == "") = true
      · constructor
        · intro _; simp [mainEntry, hstrip]
        · intro hc; simp [configError, hstrip] at hc
      · by_cases hemp : hotkeys.isEmpty = true
        · constructor
          · intro _; simp [mainEntry, hstrip, hemp]
          · intro hc; simp [configError, hstrip, hemp] at hc
        · constructor
          · intro hc; simp [configError, hstrip, hemp] at hc
          · intro _ hdry l hbatch
            subst hdry
            constructor
            · simp only [mainEntry, hstrip, hemp, hbatch]
              by_cases hall : l.all (fun r => r.success) = true <;> simp [hall]
            · intro hall
              simp only [mainEntry, hstrip, hemp, hbatch]
              simp [hall]

/-- Witness for C7: a missing payload file exits with code 1. -/
theorem exit_code_zero_iff_all_success_witness :
    mainEntry false (Except.ok "code") sampleIds false sampleTask 1 1 = 1 :=
  (exit_code_zero_iff_all_success false (Except.ok "code") sampleIds false
    sampleTask 1 1).1 rfl

/-- C8: the summary average duration is the mean of the durations of the
successful outcomes only; when there is no successful outcome the average is
reported as absent (none), not as zero, and no division is performed. -/
theorem avg_duration_successes_only (results : List ResultRecord)
    (h : ∀ r ∈ results, r.success = true → r.duration.isSome = true) :
    ∃ s, print_summary results = Except.ok s ∧
      s.total = results.length ∧
      s.successful = results.countP (fun r => r.success) ∧
      s.failed = results.length - results.countP (fun r => r.success) ∧
      (results.countP (fun r => r.success) = 0 → s.avg_duration = none) ∧
      (0 < results.countP (fun r => r.success) →
        s.avg_duration = some
          (((results.filter (fun r => r.success)).filterMap (fun r => r.duration)).sum
            / (results.countP (fun r => r.success) : ℚ))) := by
  by_cases hp : 0 < results.countP (fun r => r.success)
  · simp only [print_summary, if_pos hp, successDurations_eq results h]
    exact ⟨_, rfl, rfl, rfl, rfl, fun h0 => absurd h0 (by omega), fun _ => rfl⟩
  · simp only [print_summary, if_neg hp]
    exact ⟨_, rfl, rfl, rfl, rfl, fun _ => rfl, fun hc => absurd hc hp⟩

/-- Sample failure outcome produced by a transport exception. -/
def sampleFailRec : ResultRecord :=
  submit_single (sampleInfo 7) (Except.error "connection refused") 1 2

/-- Witness for C8 on a list with zero successful outcomes. -/
theorem avg_duration_successes_only_witness :
    ∃ s, print_summary [sampleFailRec] = Except.ok s ∧
      s.total = [sampleFailRec].length ∧
      s.successful = [sampleFailRec].countP (fun r => r.success) ∧
      s.failed = [sampleFailRec].length - [sampleFailRec].countP (fun r => r.success) ∧
      ([sampleFailRec].countP (fun r => r.success) = 0 → s.avg_duration = none) ∧
      (0 < [sampleFailRec].countP (fun r => r.success) →
        s.avg_duration = some
          ((([sampleFailRec].filter (fun r => r.success)).filterMap (fun r => r.duration)).sum
            / ([sampleFailRec].countP (fun r => r.success) : ℚ))) :=
  avg_duration_successes_only [sampleFailRec] (by decide)

/-- C9 counterexample: two invocations of the signing operation that sample
the same millisecond timestamp (but distinct request ids, so they are
genuinely distinct invocations) emit identical Epistula-Timestamp headers:
the code imposes no freshness beyond what the sampled clock value provides,
so timestamps do not differ on every pair of invocations. -/
theorem same_millisecond_same_timestamp_header :
    (generate_header sampleSha sampleSign "addr" 100000 1700000000000 "u1" [7]).epistula_timestamp
      = (generate_header sampleSha sampleSign "addr" 100000 1700000000000 "u2" [7]).epistula_timestamp
    ∧ "u1" ≠ "u2" :=
  ⟨rfl, by decide⟩

/-- C9 amended: the content digest inside the signed message depends only on
the body (two invocations with any sampled timestamps and request ids carry
the same digest), the Epistula-Timestamp header is exactly the decimal
rendering of the sampled millisecond clock value and the X-Request-Id header
exactly the sampled UUID, so the two headers differ between two invocations
exactly when the corresponding samples differ (and not otherwise). -/
theorem header_freshness_matches_sampled_inputs (sha : List Nat → List Nat)
    (sign : String → List Nat) (ss58 : String) (sv : Nat) (body : List Nat)
    (t1 t2 : Nat) (u1 u2 : String) :
    signedMessage sha t1 body = bytesToHex (sha body) ++ "." ++ natDecimal t1 ++ "." ∧
    signedMessage sha t2 body = bytesToHex (sha body) ++ "." ++ natDecimal t2 ++ "." ∧
    (generate_header sha sign ss58 sv t1 u1 body).epistula_timestamp = natDecimal t1 ∧
    (generate_header sha sign ss58 sv t1 u1 body).x_request_id = u1 ∧
    (generate_header sha sign ss58 sv t2 u2 body).x_request_id = u2 ∧
    (t1 ≠ t2 →
      (generate_header sha sign ss58 sv t1 u1 body).epistula_timestamp ≠
        (generate_header sha sign ss58 sv t2 u2 body).epistula_timestamp) ∧
    (u1 ≠ u2 →
      (generate_header sha sign ss58 sv t1 u1 body).x_request_id ≠
        (generate_header sha sign ss58 sv t2 u2 body).x_request_id) := by
  refine ⟨rfl, rfl, rfl, rfl, rfl, ?_, ?_⟩
  · intro hne he
    exact hne (natDecimal_inj he)
  · intro hne he
    exact hne he

/-- Witness for C9 amended at distinct concrete samples. -/
theorem header_freshness_matches_sampled_inputs_witness :
    (generate_header sampleSha sampleSign "addr" 100000 1 "u1" [7]).epistula_timestamp ≠
      (generate_header sampleSha sampleSign "addr" 100000 2 "u2" [7]).epistula_timestamp ∧
    (generate_header sampleSha sampleSign "addr" 100000 1 "u1" [7]).x_request_id ≠
      (generate_header sampleSha sampleSign "addr" 100000 2 "u2" [7]).x_request_id := by
  have h := header_freshness_matches_sampled_inputs sampleSha sampleSign "addr" 100000 [7]
    1 2 "u1" "u2"
  exact ⟨h.2.2.2.2.2.1 (by decide), h.2.2.2.2.2.2 (by decide)⟩
